import Mathlib

/-!
# Verification of the IS-1200 measurement engine (`engines/is1200_civil.py`)

Shallow embedding of the engine's data model and operations.

Modelling conventions:
* Python `float` values are modelled as exact rationals (`ℚ`). The engine
  performs only `+ - * / max` and decimal rounding on them.
* Python's built-in `round(x, k)` rounds to `k` decimal places with ties
  going to the nearest even digit; `pyRound` below implements that on `ℚ`.
* Python `//` on non-negative floats is `Int.floor` of the quotient, and
  `int(...)` of such a floor result is the identity, so
  `int(a // b)` is modelled as `⌊a / b⌋`.
* A Python dict value fed to `float(...)` either coerces to a number or
  makes `float` raise (`TypeError`/`ValueError`); `PyVal` models that
  dichotomy and raising is modelled with `Except Unit`.
-/

/-- Round a rational to the nearest integer, ties to even
(the semantics of Python's built-in `round` at the integer level). -/
def roundHalfEven (x : ℚ) : ℤ :=
  if x - ⌊x⌋ < 1/2 then ⌊x⌋
  else if 1/2 < x - ⌊x⌋ then ⌊x⌋ + 1
  else if ⌊x⌋ % 2 = 0 then ⌊x⌋ else ⌊x⌋ + 1

/-- Python's `round(x, k)` for `k ≥ 0` decimal places, on exact rationals. -/
def pyRound (k : ℕ) (x : ℚ) : ℚ :=
  (roundHalfEven (x * 10 ^ k) : ℚ) / 10 ^ k

theorem roundHalfEven_intCast (z : ℤ) : roundHalfEven (z : ℚ) = z := by
  unfold roundHalfEven
  rw [Int.floor_intCast]
  norm_num

theorem roundHalfEven_nonneg {x : ℚ} (h : 0 ≤ x) : 0 ≤ roundHalfEven x := by
  have h0 : (0 : ℤ) ≤ ⌊x⌋ := Int.floor_nonneg.mpr h
  unfold roundHalfEven
  split_ifs <;> omega

/-- `x` is an exact multiple of `10 ^ (-k)`, i.e. already rounded to
`k` decimal places. -/
def IsRounded (k : ℕ) (x : ℚ) : Prop :=
  ∃ z : ℤ, x * 10 ^ k = (z : ℚ)

theorem pyRound_mul_pow (k : ℕ) (x : ℚ) :
    pyRound k x * 10 ^ k = (roundHalfEven (x * 10 ^ k) : ℚ) := by
  unfold pyRound
  field_simp

theorem isRounded_pyRound (k : ℕ) (x : ℚ) : IsRounded k (pyRound k x) :=
  ⟨roundHalfEven (x * 10 ^ k), pyRound_mul_pow k x⟩

theorem pyRound_eq_self {k : ℕ} {x : ℚ} (h : IsRounded k x) : pyRound k x = x := by
  obtain ⟨z, hz⟩ := h
  unfold pyRound
  rw [hz, roundHalfEven_intCast, ← hz]
  field_simp

theorem IsRounded.add {k : ℕ} {x y : ℚ} (hx : IsRounded k x) (hy : IsRounded k y) :
    IsRounded k (x + y) := by
  obtain ⟨a, ha⟩ := hx
  obtain ⟨b, hb⟩ := hy
  exact ⟨a + b, by push_cast [← ha, ← hb]; ring⟩

theorem IsRounded.sub {k : ℕ} {x y : ℚ} (hx : IsRounded k x) (hy : IsRounded k y) :
    IsRounded k (x - y) := by
  obtain ⟨a, ha⟩ := hx
  obtain ⟨b, hb⟩ := hy
  exact ⟨a - b, by push_cast [← ha, ← hb]; ring⟩

theorem IsRounded.max_zero {k : ℕ} {x : ℚ} (hx : IsRounded k x) :
    IsRounded k (max x 0) := by
  obtain ⟨a, ha⟩ := hx
  refine ⟨max a 0, ?_⟩
  have hpow : (0 : ℚ) < 10 ^ k := by positivity
  rw [max_mul_of_nonneg _ _ (le_of_lt hpow), zero_mul, ha]
  push_cast
  rfl

theorem pyRound_zero (k : ℕ) : pyRound k 0 = 0 := by
  rw [pyRound_eq_self ⟨0, by norm_num⟩]

theorem pyRound_nonneg (k : ℕ) {x : ℚ} (h : 0 ≤ x) : 0 ≤ pyRound k x := by
  unfold pyRound
  have hpow : (0 : ℚ) < 10 ^ k := by positivity
  have : (0 : ℤ) ≤ roundHalfEven (x * 10 ^ k) :=
    roundHalfEven_nonneg (by positivity)
  positivity

/-!
## Strings: Python's `str.lower()` / `str.strip()`

`_round_for_unit` normalises its unit tag with `unit.lower().strip()`.
We model those two methods character-wise so they stay structurally
computable.
-/

/-- Python `str.lower()`: lower-case every character. -/
def pyLower (s : String) : String := ⟨s.data.map Char.toLower⟩

/-- Python `str.strip()`: drop whitespace from both ends. -/
def pyStrip (s : String) : String :=
  ⟨((s.data.dropWhile Char.isWhitespace).reverse.dropWhile Char.isWhitespace).reverse⟩

/-!
## `MeasureResult` and its `to_dict` serialisation

Python's `to_dict` builds `{gross, deductions, additions, net}` and then
`out.update(self.meta)`.  No call site in the module ever stores anything
in `meta` (the `volume` path builds its dict directly), so the four fixed
keys are never overwritten and we keep `meta` as a separate field of the
output record.
-/

/-- `MeasureResult` dataclass (`is1200_civil.py` lines 49-57). -/
structure MeasureResult where
  gross : ℚ
  deductions : ℚ
  additions : ℚ
  unit : String
  meta : List (String × ℚ)
deriving DecidableEq

/-- The dict shape returned by `MeasureResult.to_dict` and by
`IS1200Engine.volume`: the four fixed numeric keys plus extra metadata
entries. -/
structure ResultDict where
  gross : ℚ
  deductions : ℚ
  additions : ℚ
  net : ℚ
  meta : List (String × ℚ)
deriving DecidableEq

/-- `MeasureResult.to_dict` (lines 59-72): round each stored component to
`round_to` decimals, derive `net = round(max(g - d + a, 0), round_to)`. -/
def MeasureResult.to_dict (self : MeasureResult) (round_to : ℕ) : ResultDict :=
  let g := pyRound round_to self.gross
  let d := pyRound round_to self.deductions
  let a := pyRound round_to self.additions
  let n := pyRound round_to (max (g - d + a) 0)
  ⟨g, d, a, n, self.meta⟩

/-- `_round_for_unit` (lines 75-93): decimal places chosen by the
(lower-cased, stripped) unit tag. -/
def round_for_unit (value : ℚ) (unit : String) : ℚ :=
  let u := pyStrip (pyLower unit)
  if u = "m" ∨ u = "rm" ∨ u = "rmt" then pyRound 2 value
  else if u = "sqm" ∨ u = "m2" ∨ u = "sq.m" ∨ u = "sq.m." then pyRound 2 value
  else if u = "cum" ∨ u = "m3" ∨ u = "cu.m" ∨ u = "cu.m." then pyRound 3 value
  else if u = "kg" ∨ u = "kilogram" ∨ u = "kilograms" then pyRound 2 value
  else pyRound 3 value

/-!
## Openings and `_normalise_openings`

A raw element of the Python `openings` list is either not a dict, or a
dict whose `"w"`/`"h"`/`"n"` keys are absent or hold some value.  A held
value either coerces under `float(...)` (`PyVal.num`) or makes `float`
raise, e.g. `None` or a non-numeric string (`PyVal.other`).  Raising is
modelled as `Except.error ()`.
-/

/-- A Python value as seen by `float(...)`: coercible to a number, or not. -/
inductive PyVal where
  | num (val : ℚ)
  | other
deriving DecidableEq

/-- A raw entry of the `openings` argument. -/
inductive RawOpening where
  | notDict
  | dict (w h n : Option PyVal)
deriving DecidableEq

/-- A normalised opening `{"w": w, "h": h, "n": n}` with positive fields. -/
structure Opening where
  w : ℚ
  h : ℚ
  n : ℚ
deriving DecidableEq

/-- `float(o.get(key, default))`: the default when the key is absent,
the coerced number when present and numeric, an exception otherwise. -/
def pyFloatGet (v : Option PyVal) (dflt : ℚ) : Except Unit ℚ :=
  match v with
  | none => .ok dflt
  | some (.num q) => .ok q
  | some .other => .error ()

/-- Loop body of `_normalise_openings` (lines 103-112): skip non-dicts,
coerce `w`/`h`/`n` (defaults 0, 0, 1), drop entries with a non-positive
field, keep the rest in order. -/
def normaliseList : List RawOpening → Except Unit (List Opening)
  | [] => .ok []
  | RawOpening.notDict :: rest => normaliseList rest
  | RawOpening.dict w h n :: rest => do
      let wv ← pyFloatGet w 0
      let hv ← pyFloatGet h 0
      let nv ← pyFloatGet n 1
      let tail ← normaliseList rest
      if wv ≤ 0 ∨ hv ≤ 0 ∨ nv ≤ 0 then pure tail
      else pure (⟨wv, hv, nv⟩ :: tail)

/-- `_normalise_openings` (lines 96-113).  `if not openings: return []`
covers both `None` and the empty list; the loop handles the rest. -/
def normalise_openings (openings : Option (List RawOpening)) : Except Unit (List Opening) :=
  match openings with
  | none => .ok []
  | some l => if l = [] then .ok [] else normaliseList l

/-!
## The engine operations (`class IS1200Engine`)

Every record-returning operation is embedded.  The formwork helpers
return a bare rounded number in Python and are embedded as bare `ℚ`.
Python default arguments are modelled by passing every argument
explicitly.
-/

namespace IS1200Engine

/-- `IS1200Engine.volume` (lines 141-188): clamped `L*B*D` minus explicit
deductions, unit-aware rounding, and a `pct` metadata entry. -/
def volume (L B D deductions : ℚ) (unit : String) : ResultDict :=
  let L := max L 0
  let B := max B 0
  let D := max D 0
  let gross := L * B * D
  let deds := max deductions 0
  let gross_r := round_for_unit gross unit
  let ded_r := round_for_unit deds unit
  let net_r := round_for_unit (max (gross_r - ded_r) 0) unit
  let pct := if 0 < gross_r then pyRound 2 (ded_r / gross_r * 100) else 0
  ⟨gross_r, ded_r, 0, net_r, [("pct", pct)]⟩

/-- `IS1200Engine.trench_excavation` (lines 193-227): trapezoidal
averaging when the side slope is positive, prismatic otherwise. -/
def trench_excavation (length breadth_bottom depth side_slope_h_over_v deductions : ℚ)
    (unit : String) : ResultDict :=
  let length := max length 0
  let bb := max breadth_bottom 0
  let depth := max depth 0
  let gross :=
    if 0 < side_slope_h_over_v then
      let top_b := bb + 2 * side_slope_h_over_v * depth
      let avg_b := (bb + top_b) / 2
      length * avg_b * depth
    else length * bb * depth
  (MeasureResult.mk gross (max deductions 0) 0 unit []).to_dict 3

/-- `IS1200Engine.pit_excavation` (lines 229-256). -/
def pit_excavation (length_bottom breadth_bottom depth side_slope_h_over_v : ℚ)
    (unit : String) : ResultDict :=
  let lb := max length_bottom 0
  let bb := max breadth_bottom 0
  let depth := max depth 0
  let gross :=
    if 0 < side_slope_h_over_v then
      let top_L := lb + 2 * side_slope_h_over_v * depth
      let top_B := bb + 2 * side_slope_h_over_v * depth
      let avg_L := (lb + top_L) / 2
      let avg_B := (bb + top_B) / 2
      avg_L * avg_B * depth
    else lb * bb * depth
  (MeasureResult.mk gross 0 0 unit []).to_dict 3

/-- `IS1200Engine.backfill` (lines 258-284). -/
def backfill (length breadth height compaction_factor : ℚ) (unit : String) : ResultDict :=
  let length := max length 0
  let breadth := max breadth 0
  let height := max height 0
  let gross := length * breadth * height
  let extra := if 1 < compaction_factor then gross * (compaction_factor - 1) else 0
  (MeasureResult.mk gross 0 extra unit []).to_dict 3

/-- `IS1200Engine.isolated_footing_volume` (lines 289-313). -/
def isolated_footing_volume (L B D pedestal_L pedestal_B pedestal_H deductions : ℚ)
    (unit : String) : ResultDict :=
  let v_foot := max L 0 * max B 0 * max D 0
  let v_ped := max pedestal_L 0 * max pedestal_B 0 * max pedestal_H 0
  (MeasureResult.mk (v_foot + v_ped) (max deductions 0) 0 unit []).to_dict 3

/-- Deduction loop of `brickwork_wall` (lines 344-351), over the
already-normalised openings and the already-clamped thickness. -/
def brickworkDed (thickness small_opening_limit : ℚ) (os : List Opening) : ℚ :=
  os.foldl
    (fun ded o =>
      if o.w * o.h ≤ small_opening_limit then ded
      else ded + o.w * o.h * thickness * o.n)
    0

/-- `IS1200Engine.brickwork_wall` (lines 318-354). -/
def brickwork_wall (length thickness height : ℚ) (openings : Option (List RawOpening))
    (small_opening_limit : ℚ) (unit : String) : Except Unit ResultDict := do
  let length := max length 0
  let thickness := max thickness 0
  let height := max height 0
  let gross := length * thickness * height
  let os ← normalise_openings openings
  let ded := brickworkDed thickness small_opening_limit os
  pure ((MeasureResult.mk gross ded 0 unit []).to_dict 3)

/-- `IS1200Engine.stone_masonry_wall` (lines 356-375): delegates to
`brickwork_wall` with identical arguments. -/
def stone_masonry_wall (length thickness height : ℚ) (openings : Option (List RawOpening))
    (small_opening_limit : ℚ) (unit : String) : Except Unit ResultDict :=
  brickwork_wall length thickness height openings small_opening_limit unit

/-- Deduction loop of `wall_finish_area` (lines 412-424), over the
already-normalised openings and the already-clamped `sides`. -/
def wallFinishDed (sides : ℤ) (small_opening_limit medium_opening_limit : ℚ)
    (os : List Opening) : ℚ :=
  os.foldl
    (fun ded o =>
      if o.w * o.h ≤ small_opening_limit then ded
      else if o.w * o.h ≤ medium_opening_limit then ded + o.w * o.h * o.n
      else ded + o.w * o.h * (sides : ℚ) * o.n)
    0

/-- `IS1200Engine.wall_finish_area` (lines 380-427). -/
def wall_finish_area (length height : ℚ) (sides : ℤ) (openings : Option (List RawOpening))
    (small_opening_limit medium_opening_limit : ℚ) (unit : String) :
    Except Unit ResultDict := do
  let length := max length 0
  let height := max height 0
  let s := max sides 0
  let gross := length * height * (s : ℚ)
  let os ← normalise_openings openings
  let ded := wallFinishDed s small_opening_limit medium_opening_limit os
  pure ((MeasureResult.mk gross ded 0 unit []).to_dict 2)

/-- `IS1200Engine.ceiling_finish_area` (lines 429-456). -/
def ceiling_finish_area (length breadth : ℚ) (openings : Option (List RawOpening))
    (small_opening_limit : ℚ) (unit : String) : Except Unit ResultDict := do
  let length := max length 0
  let breadth := max breadth 0
  let gross := length * breadth
  let os ← normalise_openings openings
  let ded := os.foldl
    (fun ded o => if small_opening_limit < o.w * o.h then ded + o.w * o.h * o.n else ded) 0
  pure ((MeasureResult.mk gross ded 0 unit []).to_dict 2)

/-- Deduction loop of `floor_area` (lines 479-481): cutouts always
deduct fully. -/
def floorDed (os : List Opening) : ℚ :=
  os.foldl (fun ded c => ded + c.w * c.h * c.n) 0

/-- `IS1200Engine.floor_area` (lines 461-484). -/
def floor_area (length breadth : ℚ) (cutouts : Option (List RawOpening))
    (unit : String) : Except Unit ResultDict := do
  let length := max length 0
  let breadth := max breadth 0
  let gross := length * breadth
  let cs ← normalise_openings cutouts
  pure ((MeasureResult.mk gross (floorDed cs) 0 unit []).to_dict 2)

/-- `IS1200Engine.floor_area_with_wastage` (lines 486-512): wastage is an
addition of `net × (factor − 1)` computed on the base result's net. -/
def floor_area_with_wastage (length breadth wastage_factor : ℚ)
    (cutouts : Option (List RawOpening)) (unit : String) : Except Unit ResultDict := do
  let base ← floor_area length breadth cutouts unit
  let extra := if 1 < wastage_factor then base.net * (wastage_factor - 1) else 0
  pure ((MeasureResult.mk base.gross base.deductions extra unit []).to_dict 2)

/-- `IS1200Engine.formwork_column_area` (lines 517-537): bare number. -/
def formwork_column_area (L B H : ℚ) (unit : String) : ℚ :=
  round_for_unit (2 * (max L 0 + max B 0) * max H 0) unit

/-- `IS1200Engine.formwork_beam_area` (lines 539-555): bare number. -/
def formwork_beam_area (breadth depth length : ℚ) (unit : String) : ℚ :=
  round_for_unit ((2 * max depth 0 + max breadth 0) * max length 0) unit

/-- `IS1200Engine.formwork_slab_area` (lines 557-571): bare number. -/
def formwork_slab_area (length breadth : ℚ) (unit : String) : ℚ :=
  round_for_unit (max length 0 * max breadth 0) unit

/-- `IS1200Engine.staircase_waist_slab_volume` (lines 576-599). -/
def staircase_waist_slab_volume (flight_length width waist_thickness landings_volume : ℚ)
    (unit : String) : ResultDict :=
  let gross := max flight_length 0 * max width 0 * max waist_thickness 0
      + max landings_volume 0
  (MeasureResult.mk gross 0 0 unit []).to_dict 3

/-- `IS1200Engine.steel_from_kg_per_cum` (lines 604-630). -/
def steel_from_kg_per_cum (concrete_volume_cum kg_per_cum : ℚ) (unit : String) : ResultDict :=
  (MeasureResult.mk (max concrete_volume_cum 0 * max kg_per_cum 0) 0 0 unit []).to_dict 2

/-- `IS1200Engine.steel_from_bars` (lines 632-659): `dia² / 162` kg per
metre; zero record when any input is non-positive. -/
def steel_from_bars (dia_mm length_m : ℚ) (count : ℤ) (unit : String) : ResultDict :=
  let dia := max dia_mm 0
  let len := max length_m 0
  let cnt := max count 0
  if dia ≤ 0 ∨ len ≤ 0 ∨ cnt ≤ 0 then (MeasureResult.mk 0 0 0 unit []).to_dict 2
  else (MeasureResult.mk (dia ^ 2 / 162 * len * (cnt : ℚ)) 0 0 unit []).to_dict 2

/-- Bar count of `steel_slab_single_layer` (line 687):
`int(slab_width * 1000.0 // spacing_mm) + 1` after the clamps
`slab_width = max(slab_width, 0)` and `spacing_mm = max(spacing_mm, 1)`. -/
def steelSlabNBars (slab_width spacing_mm : ℚ) : ℤ :=
  ⌊max slab_width 0 * 1000 / max spacing_mm 1⌋ + 1

/-- `IS1200Engine.steel_slab_single_layer` (lines 661-698). -/
def steel_slab_single_layer (slab_length slab_width bar_dia_mm spacing_mm : ℚ)
    (unit : String) : ResultDict :=
  let len := max slab_length 0
  let n_bars := steelSlabNBars slab_width spacing_mm
  if n_bars ≤ 0 then (MeasureResult.mk 0 0 0 unit []).to_dict 2
  else steel_from_bars bar_dia_mm len n_bars unit

end IS1200Engine

/-!
## Shared lemmas
-/

/-- The net-quantity invariant on a result record: `net` is exactly
`max(gross − deductions + additions, 0)` over the record's own (already
rounded) fields, hence non-negative. -/
def NetInvariant (r : ResultDict) : Prop :=
  r.net = max (r.gross - r.deductions + r.additions) 0 ∧ 0 ≤ r.net

/-- The net-quantity invariant for operations that can raise: it must
hold whenever a record is actually returned. -/
def NetInvariantE : Except Unit ResultDict → Prop
  | .ok r => NetInvariant r
  | .error _ => True

theorem netInvariantE_ok (r : ResultDict) : NetInvariantE (.ok r) ↔ NetInvariant r :=
  Iff.rfl

theorem netInvariant_to_dict (mr : MeasureResult) (k : ℕ) : NetInvariant (mr.to_dict k) := by
  unfold MeasureResult.to_dict NetInvariant
  dsimp only
  have hr : IsRounded k (max (pyRound k mr.gross - pyRound k mr.deductions
      + pyRound k mr.additions) 0) :=
    (((isRounded_pyRound k mr.gross).sub (isRounded_pyRound k mr.deductions)).add
      (isRounded_pyRound k mr.additions)).max_zero
  rw [pyRound_eq_self hr]
  exact ⟨rfl, le_max_right _ _⟩

theorem round_for_unit_eq_pyRound (v : ℚ) (u : String) :
    round_for_unit v u = pyRound 2 v ∨ round_for_unit v u = pyRound 3 v := by
  unfold round_for_unit
  dsimp only
  split_ifs <;> simp

theorem round_for_unit_nonneg {v : ℚ} (h : 0 ≤ v) (u : String) :
    0 ≤ round_for_unit v u := by
  rcases round_for_unit_eq_pyRound v u with h' | h' <;> rw [h'] <;>
    exact pyRound_nonneg _ h

/-- Rounding for a fixed unit is idempotent across `max (x - y) 0` of two
already-unit-rounded values (all three calls pick the same precision). -/
theorem round_for_unit_max_sub (x y : ℚ) (u : String) :
    round_for_unit (max (round_for_unit x u - round_for_unit y u) 0) u
      = max (round_for_unit x u - round_for_unit y u) 0 := by
  unfold round_for_unit
  dsimp only
  split_ifs <;>
    exact pyRound_eq_self (((isRounded_pyRound _ _).sub (isRounded_pyRound _ _)).max_zero)

theorem foldl_accum {α : Type} (g : α → ℚ) :
    ∀ (l : List α) (a : ℚ), l.foldl (fun d x => d + g x) a = a + (l.map g).sum := by
  intro l
  induction l with
  | nil => intro a; simp
  | cons x xs ih =>
      intro a
      simp only [List.foldl_cons, List.map_cons, List.sum_cons]
      rw [ih]
      ring

theorem brickworkDed_eq_sum (t sl : ℚ) (os : List Opening) :
    IS1200Engine.brickworkDed t sl os
      = (os.map fun o => if o.w * o.h ≤ sl then 0 else o.w * o.h * t * o.n).sum := by
  unfold IS1200Engine.brickworkDed
  have hfun : (fun (ded : ℚ) (o : Opening) =>
        if o.w * o.h ≤ sl then ded else ded + o.w * o.h * t * o.n)
      = fun (ded : ℚ) (o : Opening) =>
        ded + (if o.w * o.h ≤ sl then 0 else o.w * o.h * t * o.n) := by
    funext d o
    split_ifs <;> ring
  rw [hfun, foldl_accum]
  ring

theorem wallFinishDed_eq_sum (s : ℤ) (sl ml : ℚ) (os : List Opening) :
    IS1200Engine.wallFinishDed s sl ml os
      = (os.map fun o =>
          if o.w * o.h ≤ sl then 0
          else if o.w * o.h ≤ ml then o.w * o.h * o.n
          else o.w * o.h * (s : ℚ) * o.n).sum := by
  unfold IS1200Engine.wallFinishDed
  have hfun : (fun (ded : ℚ) (o : Opening) =>
        if o.w * o.h ≤ sl then ded
        else if o.w * o.h ≤ ml then ded + o.w * o.h * o.n
        else ded + o.w * o.h * (s : ℚ) * o.n)
      = fun (ded : ℚ) (o : Opening) =>
        ded + (if o.w * o.h ≤ sl then 0
          else if o.w * o.h ≤ ml then o.w * o.h * o.n
          else o.w * o.h * (s : ℚ) * o.n) := by
    funext d o
    split_ifs <;> ring
  rw [hfun, foldl_accum]
  ring

namespace IS1200Engine

theorem netInv_volume (L B D deductions : ℚ) (u : String) :
    NetInvariant (volume L B D deductions u) := by
  unfold volume NetInvariant
  dsimp only
  rw [round_for_unit_max_sub]
  exact ⟨by rw [add_zero], le_max_right _ _⟩

theorem netInv_trench (length bb depth slope ded : ℚ) (u : String) :
    NetInvariant (trench_excavation length bb depth slope ded u) :=
  netInvariant_to_dict _ _

theorem netInv_pit (lb bb depth slope : ℚ) (u : String) :
    NetInvariant (pit_excavation lb bb depth slope u) :=
  netInvariant_to_dict _ _

theorem netInv_backfill (l b h cf : ℚ) (u : String) :
    NetInvariant (backfill l b h cf u) :=
  netInvariant_to_dict _ _

theorem netInv_footing (L B D pL pB pH ded : ℚ) (u : String) :
    NetInvariant (isolated_footing_volume L B D pL pB pH ded u) :=
  netInvariant_to_dict _ _

theorem netInv_staircase (fl w wt lv : ℚ) (u : String) :
    NetInvariant (staircase_waist_slab_volume fl w wt lv u) :=
  netInvariant_to_dict _ _

theorem netInv_steel_kg (cv kpc : ℚ) (u : String) :
    NetInvariant (steel_from_kg_per_cum cv kpc u) :=
  netInvariant_to_dict _ _

theorem netInv_steel_bars (dia len : ℚ) (count : ℤ) (u : String) :
    NetInvariant (steel_from_bars dia len count u) := by
  unfold steel_from_bars
  dsimp only
  split_ifs <;> exact netInvariant_to_dict _ _

theorem netInv_steel_slab (sl sw dia sp : ℚ) (u : String) :
    NetInvariant (steel_slab_single_layer sl sw dia sp u) := by
  unfold steel_slab_single_layer
  dsimp only
  split_ifs
  · exact netInvariant_to_dict _ _
  · exact netInv_steel_bars _ _ _ _

theorem netInvE_brickwork (l t h : ℚ) (openings : Option (List RawOpening))
    (sl : ℚ) (u : String) : NetInvariantE (brickwork_wall l t h openings sl u) := by
  unfold brickwork_wall
  cases hn : normalise_openings openings with
  | error e => simp [hn, NetInvariantE, Except.bind]
  | ok os =>
      simp [hn, NetInvariantE, Except.bind, Except.pure]
      exact netInvariant_to_dict _ _

theorem netInvE_stone (l t h : ℚ) (openings : Option (List RawOpening))
    (sl : ℚ) (u : String) : NetInvariantE (stone_masonry_wall l t h openings sl u) :=
  netInvE_brickwork l t h openings sl u

theorem netInvE_wall_finish (l h : ℚ) (sides : ℤ) (openings : Option (List RawOpening))
    (sl ml : ℚ) (u : String) :
    NetInvariantE (wall_finish_area l h sides openings sl ml u) := by
  unfold wall_finish_area
  cases hn : normalise_openings openings with
  | error e => simp [hn, NetInvariantE, Except.bind]
  | ok os =>
      simp [hn, NetInvariantE, Except.bind, Except.pure]
      exact netInvariant_to_dict _ _

theorem netInvE_ceiling (l b : ℚ) (openings : Option (List RawOpening))
    (sl : ℚ) (u : String) : NetInvariantE (ceiling_finish_area l b openings sl u) := by
  unfold ceiling_finish_area
  cases hn : normalise_openings openings with
  | error e => simp [hn, NetInvariantE, Except.bind]
  | ok os =>
      simp [hn, NetInvariantE, Except.bind, Except.pure]
      exact netInvariant_to_dict _ _

theorem netInvE_floor (l b : ℚ) (cutouts : Option (List RawOpening)) (u : String) :
    NetInvariantE (floor_area l b cutouts u) := by
  unfold floor_area
  cases hn : normalise_openings cutouts with
  | error e => simp [hn, NetInvariantE, Except.bind]
  | ok cs =>
      simp [hn, NetInvariantE, Except.bind, Except.pure]
      exact netInvariant_to_dict _ _

theorem netInvE_floor_wastage (l b wf : ℚ) (cutouts : Option (List RawOpening))
    (u : String) : NetInvariantE (floor_area_with_wastage l b wf cutouts u) := by
  unfold floor_area_with_wastage floor_area
  cases hn : normalise_openings cutouts with
  | error e => simp [hn, NetInvariantE, Except.bind]
  | ok cs =>
      simp [hn, NetInvariantE, Except.bind, Except.pure]
      exact netInvariant_to_dict _ _

end IS1200Engine

/-- C2: every operation that returns a result record keeps the invariant
`net = max(gross − deductions + additions, 0)` over the record's own
(rounded) fields, and `net` is never negative — for all inputs, including
deductions exceeding gross.  The first conjunct covers the shared
`MeasureResult.to_dict` serialiser; the rest cover every record-returning
operation of the engine (for operations that can raise, the invariant
holds whenever a record is returned). -/
theorem net_never_negative :
    (∀ (mr : MeasureResult) (k : ℕ), NetInvariant (mr.to_dict k)) ∧
    (∀ L B D ded u, NetInvariant (IS1200Engine.volume L B D ded u)) ∧
    (∀ l bb d s ded u, NetInvariant (IS1200Engine.trench_excavation l bb d s ded u)) ∧
    (∀ lb bb d s u, NetInvariant (IS1200Engine.pit_excavation lb bb d s u)) ∧
    (∀ l b h cf u, NetInvariant (IS1200Engine.backfill l b h cf u)) ∧
    (∀ L B D pL pB pH ded u,
      NetInvariant (IS1200Engine.isolated_footing_volume L B D pL pB pH ded u)) ∧
    (∀ fl w wt lv u, NetInvariant (IS1200Engine.staircase_waist_slab_volume fl w wt lv u)) ∧
    (∀ cv kpc u, NetInvariant (IS1200Engine.steel_from_kg_per_cum cv kpc u)) ∧
    (∀ dia len count u, NetInvariant (IS1200Engine.steel_from_bars dia len count u)) ∧
    (∀ sl sw dia sp u, NetInvariant (IS1200Engine.steel_slab_single_layer sl sw dia sp u)) ∧
    (∀ l t h os sl u, NetInvariantE (IS1200Engine.brickwork_wall l t h os sl u)) ∧
    (∀ l t h os sl u, NetInvariantE (IS1200Engine.stone_masonry_wall l t h os sl u)) ∧
    (∀ l h sides os sl ml u,
      NetInvariantE (IS1200Engine.wall_finish_area l h sides os sl ml u)) ∧
    (∀ l b os sl u, NetInvariantE (IS1200Engine.ceiling_finish_area l b os sl u)) ∧
    (∀ l b cs u, NetInvariantE (IS1200Engine.floor_area l b cs u)) ∧
    (∀ l b wf cs u, NetInvariantE (IS1200Engine.floor_area_with_wastage l b wf cs u)) :=
  ⟨netInvariant_to_dict, IS1200Engine.netInv_volume, IS1200Engine.netInv_trench,
    IS1200Engine.netInv_pit, IS1200Engine.netInv_backfill, IS1200Engine.netInv_footing,
    IS1200Engine.netInv_staircase, IS1200Engine.netInv_steel_kg,
    IS1200Engine.netInv_steel_bars, IS1200Engine.netInv_steel_slab,
    IS1200Engine.netInvE_brickwork, IS1200Engine.netInvE_stone,
    IS1200Engine.netInvE_wall_finish, IS1200Engine.netInvE_ceiling,
    IS1200Engine.netInvE_floor, IS1200Engine.netInvE_floor_wastage⟩

/-- C9: `stone_masonry_wall` returns exactly the same result record as
`brickwork_wall` on every combination of arguments. -/
theorem stone_masonry_eq_brickwork (length thickness height : ℚ)
    (openings : Option (List RawOpening)) (small_opening_limit : ℚ) (unit : String) :
    IS1200Engine.stone_masonry_wall length thickness height openings small_opening_limit unit
      = IS1200Engine.brickwork_wall length thickness height openings small_opening_limit unit :=
  rfl

theorem round_for_unit_cum (v : ℚ) : round_for_unit v "cum" = pyRound 3 v := by
  unfold round_for_unit
  dsimp only
  rw [show pyStrip (pyLower "cum") = "cum" from by decide]
  rw [if_neg (by decide), if_neg (by decide), if_pos (by decide)]

/-- C8: the `pct` metadata entry of `volume` equals the record's
deductions divided by its gross, times 100, rounded to 2 decimals, and
equals 0 whenever the record's gross is 0. -/
theorem volume_pct_formula (L B D deductions : ℚ) (u : String) :
    ((IS1200Engine.volume L B D deductions u).gross ≠ 0 →
      (IS1200Engine.volume L B D deductions u).meta
        = [("pct", pyRound 2 ((IS1200Engine.volume L B D deductions u).deductions
            / (IS1200Engine.volume L B D deductions u).gross * 100))]) ∧
    ((IS1200Engine.volume L B D deductions u).gross = 0 →
      (IS1200Engine.volume L B D deductions u).meta = [("pct", (0 : ℚ))]) := by
  have hg : 0 ≤ (IS1200Engine.volume L B D deductions u).gross := by
    unfold IS1200Engine.volume
    dsimp only
    exact round_for_unit_nonneg (by positivity) u
  constructor
  · intro hne
    have hpos : 0 < (IS1200Engine.volume L B D deductions u).gross :=
      lt_of_le_of_ne hg (Ne.symm hne)
    unfold IS1200Engine.volume at hpos ⊢
    dsimp only at hpos ⊢
    rw [if_pos hpos]
  · intro h0
    unfold IS1200Engine.volume at h0 ⊢
    dsimp only at h0 ⊢
    rw [if_neg (by rw [h0]; exact lt_irrefl 0)]

theorem volume_gross_five_two (u : String) :
    (IS1200Engine.volume 5 2 (3/10) 1 u).gross = round_for_unit 3 u := by
  unfold IS1200Engine.volume
  dsimp only
  norm_num

/-- Witness for C8 at `volume(5, 2, 0.3, deductions=1, unit="cum")`,
whose gross is 3 ≠ 0, and at `volume(0, 2, 0.3, 1, "cum")`, whose gross
is 0. -/
theorem volume_pct_formula_witness :
    (IS1200Engine.volume 5 2 (3/10) 1 "cum").meta
      = [("pct", pyRound 2 ((IS1200Engine.volume 5 2 (3/10) 1 "cum").deductions
          / (IS1200Engine.volume 5 2 (3/10) 1 "cum").gross * 100))] ∧
    (IS1200Engine.volume 0 2 (3/10) 1 "cum").meta = [("pct", (0 : ℚ))] :=
  ⟨(volume_pct_formula 5 2 (3/10) 1 "cum").1 (by
      rw [volume_gross_five_two, round_for_unit_cum,
        pyRound_eq_self ⟨3000, by norm_num⟩]
      norm_num),
   (volume_pct_formula 0 2 (3/10) 1 "cum").2 (by
      show round_for_unit (max (0 : ℚ) 0 * max (2 : ℚ) 0 * max (3/10 : ℚ) 0) "cum" = 0
      rw [show max (0 : ℚ) 0 * max (2 : ℚ) 0 * max (3/10 : ℚ) 0 = 0 from by norm_num,
        round_for_unit_cum, pyRound_zero])⟩

/-- C6: `trench_excavation` uses trapezoidal averaging exactly when the
side slope is positive and a prismatic volume otherwise, and at
`(10, 1, 1.5)` the sloped (0.5) gross strictly exceeds the vertical one. -/
theorem trench_excavation_slope_modes (length bb depth slope ded : ℚ) (u : String) :
    (0 < slope →
      (IS1200Engine.trench_excavation length bb depth slope ded u).gross
        = pyRound 3 (max length 0
            * ((max bb 0 + (max bb 0 + 2 * slope * max depth 0)) / 2) * max depth 0)) ∧
    (slope ≤ 0 →
      (IS1200Engine.trench_excavation length bb depth slope ded u).gross
        = pyRound 3 (max length 0 * max bb 0 * max depth 0)) ∧
    (IS1200Engine.trench_excavation 10 1 (3/2) (1/2) 0 "cum").gross
      > (IS1200Engine.trench_excavation 10 1 (3/2) 0 0 "cum").gross := by
  refine ⟨?_, ?_, ?_⟩
  · intro hpos
    unfold IS1200Engine.trench_excavation MeasureResult.to_dict
    dsimp only
    rw [if_pos hpos]
  · intro hnonpos
    unfold IS1200Engine.trench_excavation MeasureResult.to_dict
    dsimp only
    rw [if_neg (not_lt.mpr hnonpos)]
  · unfold IS1200Engine.trench_excavation MeasureResult.to_dict
    dsimp only
    rw [if_pos (by norm_num : (0 : ℚ) < 1/2), if_neg (by norm_num : ¬(0 : ℚ) < 0)]
    have e1 : max (10 : ℚ) 0 * ((max (1 : ℚ) 0 + (max (1 : ℚ) 0
        + 2 * (1/2) * max (3/2 : ℚ) 0)) / 2) * max (3/2 : ℚ) 0 = 105/4 := by
      norm_num
    have e2 : max (10 : ℚ) 0 * max (1 : ℚ) 0 * max (3/2 : ℚ) 0 = 15 := by
      norm_num
    rw [e1, e2, pyRound_eq_self ⟨26250, by norm_num⟩, pyRound_eq_self ⟨15000, by norm_num⟩]
    norm_num

/-- Witness for C6: the sloped branch at `(10, 1, 1.5, slope=0.5)` and
the vertical branch at slope 0. -/
theorem trench_excavation_slope_modes_witness :
    (IS1200Engine.trench_excavation 10 1 (3/2) (1/2) 0 "cum").gross
      = pyRound 3 (max (10 : ℚ) 0
          * ((max (1 : ℚ) 0 + (max (1 : ℚ) 0 + 2 * (1/2) * max (3/2 : ℚ) 0)) / 2)
          * max (3/2 : ℚ) 0) ∧
    (IS1200Engine.trench_excavation 10 1 (3/2) 0 0 "cum").gross
      = pyRound 3 (max (10 : ℚ) 0 * max (1 : ℚ) 0 * max (3/2 : ℚ) 0) :=
  ⟨(trench_excavation_slope_modes 10 1 (3/2) (1/2) 0 "cum").1 (by norm_num),
   (trench_excavation_slope_modes 10 1 (3/2) 0 0 "cum").2.1 (le_refl 0)⟩

/-- C10: the derived bar count is at least 1 for every input, so the
zero-record guard in `steel_slab_single_layer` is unreachable and the
operation always delegates to `steel_from_bars`; in particular a zero
slab width with positive diameter and length yields the weight of one
full-length bar. -/
theorem steel_slab_guard_unreachable :
    (∀ w sp : ℚ, 1 ≤ IS1200Engine.steelSlabNBars w sp) ∧
    (∀ (len w dia sp : ℚ) (u : String),
      IS1200Engine.steel_slab_single_layer len w dia sp u
        = IS1200Engine.steel_from_bars dia (max len 0) (IS1200Engine.steelSlabNBars w sp) u) ∧
    (∀ (dia len sp : ℚ) (u : String), 0 < dia → 0 < len →
      IS1200Engine.steel_slab_single_layer len 0 dia sp u
        = IS1200Engine.steel_from_bars dia len 1 u ∧
      (IS1200Engine.steel_from_bars dia len 1 u).gross = pyRound 2 (dia ^ 2 / 162 * len)) := by
  have hbars : ∀ w sp : ℚ, 1 ≤ IS1200Engine.steelSlabNBars w sp := by
    intro w sp
    unfold IS1200Engine.steelSlabNBars
    have hsp : (0 : ℚ) < max sp 1 := lt_of_lt_of_le zero_lt_one (le_max_right sp 1)
    have hq : (0 : ℚ) ≤ max w 0 * 1000 / max sp 1 := by positivity
    have := Int.floor_nonneg.mpr hq
    omega
  have hdeleg : ∀ (len w dia sp : ℚ) (u : String),
      IS1200Engine.steel_slab_single_layer len w dia sp u
        = IS1200Engine.steel_from_bars dia (max len 0) (IS1200Engine.steelSlabNBars w sp) u := by
    intro len w dia sp u
    unfold IS1200Engine.steel_slab_single_layer
    dsimp only
    rw [if_neg (by have := hbars w sp; omega)]
  refine ⟨hbars, hdeleg, ?_⟩
  intro dia len sp u hdia hlen
  have hone : IS1200Engine.steelSlabNBars 0 sp = 1 := by
    unfold IS1200Engine.steelSlabNBars
    rw [max_self, zero_mul, zero_div, Int.floor_zero]
    norm_num
  constructor
  · rw [hdeleg, hone, max_eq_left hlen.le]
  · unfold IS1200Engine.steel_from_bars
    dsimp only
    rw [if_neg, max_eq_left hdia.le, max_eq_left hlen.le]
    · unfold MeasureResult.to_dict
      dsimp only
      rw [show ((max (1 : ℤ) 0 : ℤ) : ℚ) = 1 by norm_num, mul_one]
    · rw [max_eq_left hdia.le, max_eq_left hlen.le]
      push_neg
      refine ⟨hdia, hlen, by norm_num⟩

/-- Witness for C10 at diameter 12 mm, length 6 m, spacing 150 mm,
slab width 0. -/
theorem steel_slab_guard_unreachable_witness :
    IS1200Engine.steel_slab_single_layer 6 0 12 150 "kg"
      = IS1200Engine.steel_from_bars 12 6 1 "kg" ∧
    (IS1200Engine.steel_from_bars 12 6 1 "kg").gross
      = pyRound 2 ((12 : ℚ) ^ 2 / 162 * 6) :=
  steel_slab_guard_unreachable.2.2 12 6 150 "kg" (by norm_num) (by norm_num)

/-- C1: in `wall_finish_area` the gross is
`length × height × sides` (dimensions clamped to ≥ 0, sides clamped to a
≥ 0 integer) and each surviving normalised opening contributes per the
three-tier rule with both boundaries inclusive on the lower side:
nothing for `A_one ≤ small`, `A_one × n` (one face) for
`small < A_one ≤ medium`, and `A_one × sides × n` above `medium`. -/
theorem wall_finish_area_tiering (length height : ℚ) (sides : ℤ)
    (openings : Option (List RawOpening)) (small_opening_limit medium_opening_limit : ℚ)
    (u : String) (os : List Opening)
    (hnorm : normalise_openings openings = .ok os) :
    (∃ r : ResultDict,
      IS1200Engine.wall_finish_area length height sides openings
          small_opening_limit medium_opening_limit u = .ok r ∧
      r.gross = pyRound 2 (max length 0 * max height 0 * ((max sides 0 : ℤ) : ℚ)) ∧
      r.deductions = pyRound 2 ((os.map fun o =>
        if o.w * o.h ≤ small_opening_limit then 0
        else if o.w * o.h ≤ medium_opening_limit then o.w * o.h * o.n
        else o.w * o.h * ((max sides 0 : ℤ) : ℚ) * o.n).sum)) ∧
    (∀ o : Opening, o.w * o.h ≤ small_opening_limit →
      IS1200Engine.wallFinishDed (max sides 0) small_opening_limit medium_opening_limit [o]
        = 0) ∧
    (∀ o : Opening, small_opening_limit < o.w * o.h → o.w * o.h ≤ medium_opening_limit →
      IS1200Engine.wallFinishDed (max sides 0) small_opening_limit medium_opening_limit [o]
        = o.w * o.h * o.n) ∧
    (∀ o : Opening, small_opening_limit ≤ medium_opening_limit →
      medium_opening_limit < o.w * o.h →
      IS1200Engine.wallFinishDed (max sides 0) small_opening_limit medium_opening_limit [o]
        = o.w * o.h * ((max sides 0 : ℤ) : ℚ) * o.n) := by
  refine ⟨?_, ?_, ?_, ?_⟩
  · have heq : IS1200Engine.wall_finish_area length height sides openings
        small_opening_limit medium_opening_limit u
        = .ok ((MeasureResult.mk
            (max length 0 * max height 0 * ((max sides 0 : ℤ) : ℚ))
            (IS1200Engine.wallFinishDed (max sides 0) small_opening_limit
              medium_opening_limit os) 0 u []).to_dict 2) := by
      unfold IS1200Engine.wall_finish_area
      rw [hnorm]
      rfl
    refine ⟨_, heq, rfl, ?_⟩
    show pyRound 2 (IS1200Engine.wallFinishDed (max sides 0) small_opening_limit
      medium_opening_limit os) = _
    rw [wallFinishDed_eq_sum]
  · intro o h
    simp only [IS1200Engine.wallFinishDed, List.foldl_cons, List.foldl_nil]
    rw [if_pos h]
  · intro o h1 h2
    simp only [IS1200Engine.wallFinishDed, List.foldl_cons, List.foldl_nil]
    rw [if_neg (not_le.mpr h1), if_pos h2]
    ring
  · intro o hsm h
    simp only [IS1200Engine.wallFinishDed, List.foldl_cons, List.foldl_nil]
    rw [if_neg (not_le.mpr (lt_of_le_of_lt hsm h)), if_neg (not_le.mpr h)]
    ring

/-- Witness for C1: a wall `5 × 3`, both sides, with one opening in each
tier (`A_one` = 0.4, 2.0, 4.0), limits 0.5 and 3.0. -/
theorem wall_finish_area_tiering_witness :
    (∃ r : ResultDict,
      IS1200Engine.wall_finish_area 5 3 2
          (some [RawOpening.dict (some (PyVal.num (2/5))) (some (PyVal.num 1)) none,
                 RawOpening.dict (some (PyVal.num 2)) (some (PyVal.num 1)) none,
                 RawOpening.dict (some (PyVal.num 4)) (some (PyVal.num 1)) none])
          (1/2) 3 "sqm" = .ok r ∧
      r.gross = pyRound 2 (max (5 : ℚ) 0 * max (3 : ℚ) 0 * ((max (2 : ℤ) 0 : ℤ) : ℚ)) ∧
      r.deductions = pyRound 2 (([(⟨2/5, 1, 1⟩ : Opening), ⟨2, 1, 1⟩, ⟨4, 1, 1⟩].map fun o =>
        if o.w * o.h ≤ 1/2 then 0
        else if o.w * o.h ≤ 3 then o.w * o.h * o.n
        else o.w * o.h * ((max (2 : ℤ) 0 : ℤ) : ℚ) * o.n).sum)) ∧
    IS1200Engine.wallFinishDed (max (2 : ℤ) 0) (1/2) 3 [⟨2/5, 1, 1⟩] = 0 ∧
    IS1200Engine.wallFinishDed (max (2 : ℤ) 0) (1/2) 3 [⟨2, 1, 1⟩] = (2 : ℚ) * 1 * 1 ∧
    IS1200Engine.wallFinishDed (max (2 : ℤ) 0) (1/2) 3 [⟨4, 1, 1⟩]
      = (4 : ℚ) * 1 * ((max (2 : ℤ) 0 : ℤ) : ℚ) * 1 := by
  have hnorm : normalise_openings
      (some [RawOpening.dict (some (PyVal.num (2/5))) (some (PyVal.num 1)) none,
             RawOpening.dict (some (PyVal.num 2)) (some (PyVal.num 1)) none,
             RawOpening.dict (some (PyVal.num 4)) (some (PyVal.num 1)) none])
      = .ok [⟨2/5, 1, 1⟩, ⟨2, 1, 1⟩, ⟨4, 1, 1⟩] := by
    unfold normalise_openings
    dsimp only
    rw [if_neg (by decide)]
    norm_num [normaliseList, pyFloatGet, Except.instMonad, Bind.bind, Except.bind,
      Pure.pure, Except.pure]
  have h := wall_finish_area_tiering 5 3 2 _ (1/2) 3 "sqm" _ hnorm
  exact ⟨h.1, h.2.1 ⟨2/5, 1, 1⟩ (by norm_num),
    h.2.2.1 ⟨2, 1, 1⟩ (by norm_num) (by norm_num),
    h.2.2.2 ⟨4, 1, 1⟩ (by norm_num) (by norm_num)⟩

/-- C3: in `brickwork_wall` each surviving normalised opening with
`area_one = w × h` contributes no deduction when
`area_one ≤ small_opening_limit` (boundary inclusive on the ignore side)
and `area_one × thickness × count` when `area_one > small_opening_limit`
(with the clamped thickness). -/
theorem brickwork_wall_small_opening_rule (length thickness height : ℚ)
    (openings : Option (List RawOpening)) (small_opening_limit : ℚ) (u : String)
    (os : List Opening) (hnorm : normalise_openings openings = .ok os) :
    (∃ r : ResultDict,
      IS1200Engine.brickwork_wall length thickness height openings
          small_opening_limit u = .ok r ∧
      r.gross = pyRound 3 (max length 0 * max thickness 0 * max height 0) ∧
      r.deductions = pyRound 3 ((os.map fun o =>
        if o.w * o.h ≤ small_opening_limit then 0
        else o.w * o.h * max thickness 0 * o.n).sum)) ∧
    (∀ o : Opening, o.w * o.h ≤ small_opening_limit →
      IS1200Engine.brickworkDed (max thickness 0) small_opening_limit [o] = 0) ∧
    (∀ o : Opening, small_opening_limit < o.w * o.h →
      IS1200Engine.brickworkDed (max thickness 0) small_opening_limit [o]
        = o.w * o.h * max thickness 0 * o.n) := by
  refine ⟨?_, ?_, ?_⟩
  · have heq : IS1200Engine.brickwork_wall length thickness height openings
        small_opening_limit u
        = .ok ((MeasureResult.mk
            (max length 0 * max thickness 0 * max height 0)
            (IS1200Engine.brickworkDed (max thickness 0) small_opening_limit os)
            0 u []).to_dict 3) := by
      unfold IS1200Engine.brickwork_wall
      rw [hnorm]
      rfl
    refine ⟨_, heq, rfl, ?_⟩
    show pyRound 3 (IS1200Engine.brickworkDed (max thickness 0) small_opening_limit os) = _
    rw [brickworkDed_eq_sum]
  · intro o h
    simp only [IS1200Engine.brickworkDed, List.foldl_cons, List.foldl_nil]
    rw [if_pos h]
  · intro o h
    simp only [IS1200Engine.brickworkDed, List.foldl_cons, List.foldl_nil]
    rw [if_neg (not_le.mpr h)]
    ring

/-- Witness for C3: a `5 × 0.23 × 3` wall with one exempt opening of
exactly the 0.10 limit area and one door of 2.1 m². -/
theorem brickwork_wall_small_opening_rule_witness :
    (∃ r : ResultDict,
      IS1200Engine.brickwork_wall 5 (23/100) 3
          (some [RawOpening.dict (some (PyVal.num (1/2))) (some (PyVal.num (1/5))) none,
                 RawOpening.dict (some (PyVal.num 1)) (some (PyVal.num (21/10))) none])
          (1/10) "cum" = .ok r ∧
      r.gross = pyRound 3 (max (5 : ℚ) 0 * max (23/100 : ℚ) 0 * max (3 : ℚ) 0) ∧
      r.deductions = pyRound 3 (([(⟨1/2, 1/5, 1⟩ : Opening), ⟨1, 21/10, 1⟩].map fun o =>
        if o.w * o.h ≤ 1/10 then 0
        else o.w * o.h * max (23/100 : ℚ) 0 * o.n).sum)) ∧
    IS1200Engine.brickworkDed (max (23/100 : ℚ) 0) (1/10) [⟨1/2, 1/5, 1⟩] = 0 ∧
    IS1200Engine.brickworkDed (max (23/100 : ℚ) 0) (1/10) [⟨1, 21/10, 1⟩]
      = (1 : ℚ) * (21/10) * max (23/100 : ℚ) 0 * 1 := by
  have hnorm : normalise_openings
      (some [RawOpening.dict (some (PyVal.num (1/2))) (some (PyVal.num (1/5))) none,
             RawOpening.dict (some (PyVal.num 1)) (some (PyVal.num (21/10))) none])
      = .ok [⟨1/2, 1/5, 1⟩, ⟨1, 21/10, 1⟩] := by
    unfold normalise_openings
    dsimp only
    rw [if_neg (by decide)]
    norm_num [normaliseList, pyFloatGet, Except.instMonad, Bind.bind, Except.bind,
      Pure.pure, Except.pure]
  have h := brickwork_wall_small_opening_rule 5 (23/100) 3 _ (1/10) "cum" _ hnorm
  exact ⟨h.1, h.2.1 ⟨1/2, 1/5, 1⟩ (by norm_num),
    h.2.2 ⟨1, 21/10, 1⟩ (by norm_num)⟩

theorem pyRound_pyRound (k : ℕ) (x : ℚ) : pyRound k (pyRound k x) = pyRound k x :=
  pyRound_eq_self (isRounded_pyRound k x)

/-- Serialising a result with zero additions: the rounded fields and the
clamped net in closed form. -/
theorem to_dict_no_additions (g d : ℚ) (u' : String) (m : List (String × ℚ)) (k : ℕ) :
    (MeasureResult.mk g d 0 u' m).to_dict k
      = ⟨pyRound k g, pyRound k d, 0, max (pyRound k g - pyRound k d) 0, m⟩ := by
  unfold MeasureResult.to_dict
  dsimp only
  rw [pyRound_zero, add_zero,
    pyRound_eq_self (((isRounded_pyRound k g).sub (isRounded_pyRound k d)).max_zero)]

/-- C7: `floor_area_with_wastage` computes the base net floor area first;
with `wastage_factor > 1` the recorded addition is `net × (factor − 1)`
(applied to the base net, not the gross), and with `wastage_factor = 1`
the additions field is 0 and the net equals `floor_area(...)`'s net
exactly (gross and deductions also unchanged). -/
theorem floor_area_with_wastage_rule (length breadth wf : ℚ)
    (cutouts : Option (List RawOpening)) (u : String) (cs : List Opening)
    (hnorm : normalise_openings cutouts = .ok cs) :
    ∃ base : ResultDict,
      IS1200Engine.floor_area length breadth cutouts u = .ok base ∧
      (1 < wf →
        ∃ r : ResultDict,
          IS1200Engine.floor_area_with_wastage length breadth wf cutouts u = .ok r ∧
          r.additions = pyRound 2 (base.net * (wf - 1)) ∧
          r.gross = base.gross ∧ r.deductions = base.deductions) ∧
      (wf = 1 →
        ∃ r : ResultDict,
          IS1200Engine.floor_area_with_wastage length breadth wf cutouts u = .ok r ∧
          r.additions = 0 ∧ r.net = base.net ∧
          r.gross = base.gross ∧ r.deductions = base.deductions) := by
  have hbase_eq : IS1200Engine.floor_area length breadth cutouts u
      = .ok ((MeasureResult.mk (max length 0 * max breadth 0)
          (IS1200Engine.floorDed cs) 0 u []).to_dict 2) := by
    unfold IS1200Engine.floor_area
    rw [hnorm]
    rfl
  have hwx : IS1200Engine.floor_area_with_wastage length breadth wf cutouts u
      = .ok ((MeasureResult.mk (pyRound 2 (max length 0 * max breadth 0))
          (pyRound 2 (IS1200Engine.floorDed cs))
          (if 1 < wf then
            max (pyRound 2 (max length 0 * max breadth 0)
              - pyRound 2 (IS1200Engine.floorDed cs)) 0 * (wf - 1)
           else 0)
          u []).to_dict 2) := by
    unfold IS1200Engine.floor_area_with_wastage IS1200Engine.floor_area
    rw [hnorm]
    simp only [Except.instMonad, Bind.bind, Except.bind, Pure.pure, Except.pure,
      to_dict_no_additions]
  refine ⟨⟨pyRound 2 (max length 0 * max breadth 0), pyRound 2 (IS1200Engine.floorDed cs), 0,
      max (pyRound 2 (max length 0 * max breadth 0)
        - pyRound 2 (IS1200Engine.floorDed cs)) 0, []⟩,
    by rw [hbase_eq, to_dict_no_additions], ?_, ?_⟩
  · intro h1
    refine ⟨_, by rw [hwx, if_pos h1], rfl, ?_, ?_⟩
    · show pyRound 2 (pyRound 2 (max length 0 * max breadth 0)) = _
      rw [pyRound_pyRound]
    · show pyRound 2 (pyRound 2 (IS1200Engine.floorDed cs)) = _
      rw [pyRound_pyRound]
  · intro h1
    subst h1
    refine ⟨_, by rw [hwx, if_neg (lt_irrefl 1)], ?_, ?_, ?_, ?_⟩
    · show pyRound 2 0 = 0
      exact pyRound_zero 2
    · rw [to_dict_no_additions]
      show max (pyRound 2 (pyRound 2 (max length 0 * max breadth 0))
        - pyRound 2 (pyRound 2 (IS1200Engine.floorDed cs))) 0 = _
      rw [pyRound_pyRound, pyRound_pyRound]
    · rw [to_dict_no_additions]
      show pyRound 2 (pyRound 2 (max length 0 * max breadth 0)) = _
      rw [pyRound_pyRound]
    · rw [to_dict_no_additions]
      show pyRound 2 (pyRound 2 (IS1200Engine.floorDed cs)) = _
      rw [pyRound_pyRound]

/-- Witness for C7 on a plain `4 × 3` floor, once with factor 1.03 and
once with factor 1. -/
theorem floor_area_with_wastage_rule_witness :
    (∃ base : ResultDict, IS1200Engine.floor_area 4 3 none "sqm" = .ok base ∧
      ∃ r : ResultDict,
        IS1200Engine.floor_area_with_wastage 4 3 (103/100) none "sqm" = .ok r ∧
        r.additions = pyRound 2 (base.net * (103/100 - 1)) ∧
        r.gross = base.gross ∧ r.deductions = base.deductions) ∧
    (∃ base : ResultDict, IS1200Engine.floor_area 4 3 none "sqm" = .ok base ∧
      ∃ r : ResultDict,
        IS1200Engine.floor_area_with_wastage 4 3 1 none "sqm" = .ok r ∧
        r.additions = 0 ∧ r.net = base.net ∧
        r.gross = base.gross ∧ r.deductions = base.deductions) := by
  obtain ⟨b1, hb1, hw1, -⟩ := floor_area_with_wastage_rule 4 3 (103/100) none "sqm" [] rfl
  obtain ⟨b2, hb2, -, hw2⟩ := floor_area_with_wastage_rule 4 3 1 none "sqm" [] rfl
  exact ⟨⟨b1, hb1, hw1 (by norm_num)⟩, ⟨b2, hb2, hw2 rfl⟩⟩

/-!
## C4: totality of normalisation

The spec says normalisation never raises.  The code raises whenever a
present `"w"`/`"h"`/`"n"` value does not coerce under `float(...)`
(e.g. `None` or a non-numeric string), so the property only holds on
entries whose present values are coercible.
-/

/-- A present value that `float(...)` accepts. -/
def coercibleVal : Option PyVal → Bool
  | some PyVal.other => false
  | _ => true

/-- An entry whose `float(...)` coercions all succeed. -/
def coercibleRaw : RawOpening → Bool
  | RawOpening.notDict => true
  | RawOpening.dict w h n => coercibleVal w && coercibleVal h && coercibleVal n

/-- `float(o.get(key, default))` on a coercible value, as a total
function. -/
def coerceOr (v : Option PyVal) (dflt : ℚ) : ℚ :=
  match v with
  | some (PyVal.num q) => q
  | _ => dflt

/-- What normalisation keeps of a single coercible entry: drop non-dicts
and entries with a non-positive width, height, or count (defaults 0, 0,
1); keep the rest. -/
def specNormOne : RawOpening → Option Opening
  | RawOpening.notDict => none
  | RawOpening.dict w h n =>
      let wv := coerceOr w 0
      let hv := coerceOr h 0
      let nv := coerceOr n 1
      if wv ≤ 0 ∨ hv ≤ 0 ∨ nv ≤ 0 then none else some ⟨wv, hv, nv⟩

theorem pyFloatGet_coercible {v : Option PyVal} (h : coercibleVal v = true) (dflt : ℚ) :
    pyFloatGet v dflt = .ok (coerceOr v dflt) := by
  match v with
  | none => rfl
  | some (PyVal.num q) => rfl
  | some PyVal.other => simp [coercibleVal] at h

theorem normaliseList_coercible :
    ∀ l : List RawOpening, (∀ o ∈ l, coercibleRaw o = true) →
      normaliseList l = .ok (l.filterMap specNormOne) := by
  intro l
  induction l with
  | nil => intro _; rfl
  | cons o rest ih =>
      intro hco
      have hrest := ih fun x hx => hco x (List.mem_cons_of_mem o hx)
      match o with
      | RawOpening.notDict =>
          simpa [normaliseList, List.filterMap_cons, specNormOne] using hrest
      | RawOpening.dict w h n =>
          have hself := hco _ (List.mem_cons_self _ _)
          simp only [coercibleRaw, Bool.and_eq_true] at hself
          obtain ⟨⟨hw, hh⟩, hn⟩ := hself
          simp only [normaliseList, pyFloatGet_coercible hw, pyFloatGet_coercible hh,
            pyFloatGet_coercible hn, hrest, List.filterMap_cons, specNormOne,
            Except.instMonad, Bind.bind, Except.bind, Pure.pure, Except.pure]
          split_ifs <;> rfl

/-- C4 counterexample: a single opening record carrying a value that
`float(...)` cannot coerce (e.g. `{"w": None}`) makes normalisation
raise instead of being silently excluded. -/
theorem normalise_openings_raises_on_garbage :
    normalise_openings (some [RawOpening.dict (some PyVal.other) none none])
      = .error () := rfl

/-- C4 (amended): provided every present width/height/count value is
coercible to a number, normalisation never fails: `None` and the empty
list give an empty result, non-mapping entries and entries with a
non-positive width, height, or count after coercion (defaults 0, 0, 1)
are silently excluded, and the surviving entries keep their input order
(the output is a `filterMap` of the input). -/
theorem normalise_openings_total_on_coercible :
    (normalise_openings none = .ok []) ∧
    (normalise_openings (some []) = .ok []) ∧
    (∀ l : List RawOpening, (∀ o ∈ l, coercibleRaw o = true) →
      normalise_openings (some l) = .ok (l.filterMap specNormOne)) := by
  refine ⟨rfl, rfl, ?_⟩
  intro l hco
  match l with
  | [] => rfl
  | o :: rest =>
      unfold normalise_openings
      dsimp only
      rw [if_neg (by simp), normaliseList_coercible _ hco]

/-- Witness for C4 (amended) on a mixed list: a non-dict entry, a
well-formed opening, an all-defaults entry (dropped: width defaults to
0), and a zero-height entry (dropped). -/
theorem normalise_openings_total_on_coercible_witness :
    normalise_openings (some [RawOpening.notDict,
        RawOpening.dict (some (PyVal.num 1)) (some (PyVal.num 2)) (some (PyVal.num 3)),
        RawOpening.dict none none none,
        RawOpening.dict (some (PyVal.num 1)) (some (PyVal.num 0)) none])
      = .ok ([RawOpening.notDict,
        RawOpening.dict (some (PyVal.num 1)) (some (PyVal.num 2)) (some (PyVal.num 3)),
        RawOpening.dict none none none,
        RawOpening.dict (some (PyVal.num 1)) (some (PyVal.num 0)) none].filterMap
          specNormOne) :=
  normalise_openings_total_on_coercible.2.2 _ (by decide)

/-!
## C5: rounding precision and the unit tag

`_round_for_unit` does select 2 or 3 decimals from the unit tag, but only
`volume` and the formwork helpers route their visible results through it:
every other operation serialises through `to_dict` with a precision fixed
per operation, ignoring the tag.
-/

/-- C5 counterexample: `wall_finish_area` with the recognised volume tag
`"cum"` still rounds its visible gross to 2 decimals: on a raw gross of
1.2345 it returns 1.23, not the 1.234 that 3-decimal (volume) rounding
would give. -/
theorem wall_finish_unit_tag_counterexample :
    ∃ r : ResultDict,
      IS1200Engine.wall_finish_area (12345/10000) 1 1 none (1/2) 3 "cum" = .ok r ∧
      r.gross = 123/100 ∧
      pyRound 3 (max (12345/10000 : ℚ) 0 * max (1 : ℚ) 0 * ((max (1 : ℤ) 0 : ℤ) : ℚ))
        = 617/500 ∧
      (123/100 : ℚ) ≠ 617/500 := by
  have harg : max (12345/10000 : ℚ) 0 * max (1 : ℚ) 0 * ((max (1 : ℤ) 0 : ℤ) : ℚ)
      = 12345/10000 := by norm_num
  refine ⟨_, by unfold IS1200Engine.wall_finish_area; rfl, ?_, ?_, by norm_num⟩
  · show pyRound 2 (max (12345/10000 : ℚ) 0 * max (1 : ℚ) 0 * ((max (1 : ℤ) 0 : ℤ) : ℚ))
      = 123/100
    rw [harg]
    norm_num [pyRound, roundHalfEven]
  · rw [harg]
    norm_num [pyRound, roundHalfEven]

/-- `r` is the `to_dict` serialisation of some measurement at a fixed
`k` decimal places. -/
def SerialisedAt (k : ℕ) (r : ResultDict) : Prop :=
  ∃ mr : MeasureResult, r = mr.to_dict k

/-- Fixed-precision serialisation for operations that can raise: holds of
the record whenever one is returned. -/
def SerialisedAtE (k : ℕ) : Except Unit ResultDict → Prop
  | .ok r => SerialisedAt k r
  | .error _ => True

theorem serialisedAt_to_dict (mr : MeasureResult) (k : ℕ) :
    SerialisedAt k (mr.to_dict k) :=
  ⟨mr, rfl⟩

namespace IS1200Engine

theorem serialisedAt_steel_bars (dia len : ℚ) (count : ℤ) (u : String) :
    SerialisedAt 2 (steel_from_bars dia len count u) := by
  unfold steel_from_bars
  dsimp only
  split_ifs <;> exact serialisedAt_to_dict _ 2

theorem serialisedAt_steel_slab (sl sw dia sp : ℚ) (u : String) :
    SerialisedAt 2 (steel_slab_single_layer sl sw dia sp u) := by
  unfold steel_slab_single_layer
  dsimp only
  split_ifs
  · exact serialisedAt_to_dict _ 2
  · exact serialisedAt_steel_bars _ _ _ _

theorem serialisedAtE_brickwork (l t h : ℚ) (openings : Option (List RawOpening))
    (sl : ℚ) (u : String) : SerialisedAtE 3 (brickwork_wall l t h openings sl u) := by
  unfold brickwork_wall
  cases hn : normalise_openings openings with
  | error e => simp [hn, SerialisedAtE, Except.bind]
  | ok os =>
      simp [hn, SerialisedAtE, Except.bind, Except.pure]
      exact serialisedAt_to_dict _ 3

theorem serialisedAtE_wall_finish (l h : ℚ) (sides : ℤ)
    (openings : Option (List RawOpening)) (sl ml : ℚ) (u : String) :
    SerialisedAtE 2 (wall_finish_area l h sides openings sl ml u) := by
  unfold wall_finish_area
  cases hn : normalise_openings openings with
  | error e => simp [hn, SerialisedAtE, Except.bind]
  | ok os =>
      simp [hn, SerialisedAtE, Except.bind, Except.pure]
      exact serialisedAt_to_dict _ 2

theorem serialisedAtE_ceiling (l b : ℚ) (openings : Option (List RawOpening))
    (sl : ℚ) (u : String) : SerialisedAtE 2 (ceiling_finish_area l b openings sl u) := by
  unfold ceiling_finish_area
  cases hn : normalise_openings openings with
  | error e => simp [hn, SerialisedAtE, Except.bind]
  | ok os =>
      simp [hn, SerialisedAtE, Except.bind, Except.pure]
      exact serialisedAt_to_dict _ 2

theorem serialisedAtE_floor (l b : ℚ) (cutouts : Option (List RawOpening)) (u : String) :
    SerialisedAtE 2 (floor_area l b cutouts u) := by
  unfold floor_area
  cases hn : normalise_openings cutouts with
  | error e => simp [hn, SerialisedAtE, Except.bind]
  | ok cs =>
      simp [hn, SerialisedAtE, Except.bind, Except.pure]
      exact serialisedAt_to_dict _ 2

theorem serialisedAtE_floor_wastage (l b wf : ℚ) (cutouts : Option (List RawOpening))
    (u : String) : SerialisedAtE 2 (floor_area_with_wastage l b wf cutouts u) := by
  unfold floor_area_with_wastage floor_area
  cases hn : normalise_openings cutouts with
  | error e => simp [hn, SerialisedAtE, Except.bind]
  | ok cs =>
      simp [hn, SerialisedAtE, Except.bind, Except.pure]
      exact serialisedAt_to_dict _ 2

end IS1200Engine

/-- C5 (amended): `_round_for_unit` itself rounds to 2 decimals for the
linear, area, and weight tag families, to 3 for the volume family, and to
3 for any unrecognised tag, never rejecting.  `volume` and the three
formwork helpers route their visible results through it; every other
record-returning operation serialises through `to_dict` at a fixed
per-operation precision (2 or 3 decimals) and its result is independent
of the unit tag altogether, so for those operations the tag does not
determine the number of decimal places. -/
theorem round_for_unit_families (v : ℚ) (u : String) :
    (pyStrip (pyLower u) ∈ ["m", "rm", "rmt", "sqm", "m2", "sq.m", "sq.m.",
        "kg", "kilogram", "kilograms"] → round_for_unit v u = pyRound 2 v) ∧
    (pyStrip (pyLower u) ∈ ["cum", "m3", "cu.m", "cu.m."] →
      round_for_unit v u = pyRound 3 v) ∧
    (pyStrip (pyLower u) ∉ ["m", "rm", "rmt", "sqm", "m2", "sq.m", "sq.m.", "cum", "m3",
        "cu.m", "cu.m.", "kg", "kilogram", "kilograms"] →
      round_for_unit v u = pyRound 3 v) ∧
    (∀ (L B D ded : ℚ) (u1 : String),
      (IS1200Engine.volume L B D ded u1).gross
          = round_for_unit (max L 0 * max B 0 * max D 0) u1 ∧
      (IS1200Engine.volume L B D ded u1).deductions = round_for_unit (max ded 0) u1) ∧
    (∀ (L B H : ℚ) (u1 : String),
      IS1200Engine.formwork_column_area L B H u1
        = round_for_unit (2 * (max L 0 + max B 0) * max H 0) u1) ∧
    (∀ (b d l : ℚ) (u1 : String),
      IS1200Engine.formwork_beam_area b d l u1
        = round_for_unit ((2 * max d 0 + max b 0) * max l 0) u1) ∧
    (∀ (l b : ℚ) (u1 : String),
      IS1200Engine.formwork_slab_area l b u1
        = round_for_unit (max l 0 * max b 0) u1) ∧
    (∀ (l bb d s ded : ℚ) (u1 u2 : String),
      IS1200Engine.trench_excavation l bb d s ded u1
          = IS1200Engine.trench_excavation l bb d s ded u2 ∧
      SerialisedAt 3 (IS1200Engine.trench_excavation l bb d s ded u1)) ∧
    (∀ (lb bb d s : ℚ) (u1 u2 : String),
      IS1200Engine.pit_excavation lb bb d s u1 = IS1200Engine.pit_excavation lb bb d s u2 ∧
      SerialisedAt 3 (IS1200Engine.pit_excavation lb bb d s u1)) ∧
    (∀ (l b h cf : ℚ) (u1 u2 : String),
      IS1200Engine.backfill l b h cf u1 = IS1200Engine.backfill l b h cf u2 ∧
      SerialisedAt 3 (IS1200Engine.backfill l b h cf u1)) ∧
    (∀ (L B D pL pB pH ded : ℚ) (u1 u2 : String),
      IS1200Engine.isolated_footing_volume L B D pL pB pH ded u1
          = IS1200Engine.isolated_footing_volume L B D pL pB pH ded u2 ∧
      SerialisedAt 3 (IS1200Engine.isolated_footing_volume L B D pL pB pH ded u1)) ∧
    (∀ (fl w wt lv : ℚ) (u1 u2 : String),
      IS1200Engine.staircase_waist_slab_volume fl w wt lv u1
          = IS1200Engine.staircase_waist_slab_volume fl w wt lv u2 ∧
      SerialisedAt 3 (IS1200Engine.staircase_waist_slab_volume fl w wt lv u1)) ∧
    (∀ (cv kpc : ℚ) (u1 u2 : String),
      IS1200Engine.steel_from_kg_per_cum cv kpc u1
          = IS1200Engine.steel_from_kg_per_cum cv kpc u2 ∧
      SerialisedAt 2 (IS1200Engine.steel_from_kg_per_cum cv kpc u1)) ∧
    (∀ (dia len : ℚ) (count : ℤ) (u1 u2 : String),
      IS1200Engine.steel_from_bars dia len count u1
          = IS1200Engine.steel_from_bars dia len count u2 ∧
      SerialisedAt 2 (IS1200Engine.steel_from_bars dia len count u1)) ∧
    (∀ (sl sw dia sp : ℚ) (u1 u2 : String),
      IS1200Engine.steel_slab_single_layer sl sw dia sp u1
          = IS1200Engine.steel_slab_single_layer sl sw dia sp u2 ∧
      SerialisedAt 2 (IS1200Engine.steel_slab_single_layer sl sw dia sp u1)) ∧
    (∀ (l t h : ℚ) (os : Option (List RawOpening)) (sl : ℚ) (u1 u2 : String),
      IS1200Engine.brickwork_wall l t h os sl u1 = IS1200Engine.brickwork_wall l t h os sl u2 ∧
      SerialisedAtE 3 (IS1200Engine.brickwork_wall l t h os sl u1)) ∧
    (∀ (l t h : ℚ) (os : Option (List RawOpening)) (sl : ℚ) (u1 u2 : String),
      IS1200Engine.stone_masonry_wall l t h os sl u1
          = IS1200Engine.stone_masonry_wall l t h os sl u2 ∧
      SerialisedAtE 3 (IS1200Engine.stone_masonry_wall l t h os sl u1)) ∧
    (∀ (l h : ℚ) (sides : ℤ) (os : Option (List RawOpening)) (sl ml : ℚ) (u1 u2 : String),
      IS1200Engine.wall_finish_area l h sides os sl ml u1
          = IS1200Engine.wall_finish_area l h sides os sl ml u2 ∧
      SerialisedAtE 2 (IS1200Engine.wall_finish_area l h sides os sl ml u1)) ∧
    (∀ (l b : ℚ) (os : Option (List RawOpening)) (sl : ℚ) (u1 u2 : String),
      IS1200Engine.ceiling_finish_area l b os sl u1
          = IS1200Engine.ceiling_finish_area l b os sl u2 ∧
      SerialisedAtE 2 (IS1200Engine.ceiling_finish_area l b os sl u1)) ∧
    (∀ (l b : ℚ) (cs : Option (List RawOpening)) (u1 u2 : String),
      IS1200Engine.floor_area l b cs u1 = IS1200Engine.floor_area l b cs u2 ∧
      SerialisedAtE 2 (IS1200Engine.floor_area l b cs u1)) ∧
    (∀ (l b wf : ℚ) (cs : Option (List RawOpening)) (u1 u2 : String),
      IS1200Engine.floor_area_with_wastage l b wf cs u1
          = IS1200Engine.floor_area_with_wastage l b wf cs u2 ∧
      SerialisedAtE 2 (IS1200Engine.floor_area_with_wastage l b wf cs u1)) := by
  refine ⟨?_, ?_, ?_, fun L B D ded u1 => ⟨rfl, rfl⟩,
    fun L B H u1 => rfl, fun b d l u1 => rfl, fun l b u1 => rfl,
    fun l bb d s ded u1 u2 => ⟨rfl, serialisedAt_to_dict _ 3⟩,
    fun lb bb d s u1 u2 => ⟨rfl, serialisedAt_to_dict _ 3⟩,
    fun l b h cf u1 u2 => ⟨rfl, serialisedAt_to_dict _ 3⟩,
    fun L B D pL pB pH ded u1 u2 => ⟨rfl, serialisedAt_to_dict _ 3⟩,
    fun fl w wt lv u1 u2 => ⟨rfl, serialisedAt_to_dict _ 3⟩,
    fun cv kpc u1 u2 => ⟨rfl, serialisedAt_to_dict _ 2⟩,
    fun dia len count u1 u2 => ⟨rfl, IS1200Engine.serialisedAt_steel_bars dia len count u1⟩,
    fun sl sw dia sp u1 u2 => ⟨rfl, IS1200Engine.serialisedAt_steel_slab sl sw dia sp u1⟩,
    fun l t h os sl u1 u2 => ⟨rfl, IS1200Engine.serialisedAtE_brickwork l t h os sl u1⟩,
    fun l t h os sl u1 u2 => ⟨rfl, IS1200Engine.serialisedAtE_brickwork l t h os sl u1⟩,
    fun l h sides os sl ml u1 u2 =>
      ⟨rfl, IS1200Engine.serialisedAtE_wall_finish l h sides os sl ml u1⟩,
    fun l b os sl u1 u2 => ⟨rfl, IS1200Engine.serialisedAtE_ceiling l b os sl u1⟩,
    fun l b cs u1 u2 => ⟨rfl, IS1200Engine.serialisedAtE_floor l b cs u1⟩,
    fun l b wf cs u1 u2 => ⟨rfl, IS1200Engine.serialisedAtE_floor_wastage l b wf cs u1⟩⟩
  · intro hmem
    unfold round_for_unit
    dsimp only
    simp only [List.mem_cons, List.not_mem_nil, or_false] at hmem
    rcases hmem with h|h|h|h|h|h|h|h|h|h <;> rw [h] <;> simp +decide
  · intro hmem
    unfold round_for_unit
    dsimp only
    simp only [List.mem_cons, List.not_mem_nil, or_false] at hmem
    rcases hmem with h|h|h|h <;> rw [h] <;> simp +decide
  · intro hmem
    unfold round_for_unit
    dsimp only
    simp only [List.mem_cons, List.not_mem_nil, or_false] at hmem
    push_neg at hmem
    obtain ⟨h1, h2, h3, h4, h5, h6, h7, h8, h9, h10, h11, h12, h13, h14⟩ := hmem
    rw [if_neg (by simp [h1, h2, h3]), if_neg (by simp [h4, h5, h6, h7]),
      if_neg (by simp [h8, h9, h10, h11]), if_neg (by simp [h12, h13, h14])]

/-- Witness for C5 (amended): the weight tag `"kg"` selects 2 decimals,
the volume tag `"cum"` selects 3, and an unrecognised tag `"bags"`
defaults to 3. -/
theorem round_for_unit_families_witness :
    round_for_unit (12345/10000) "kg" = pyRound 2 (12345/10000) ∧
    round_for_unit (12345/10000) "cum" = pyRound 3 (12345/10000) ∧
    round_for_unit (12345/10000) "bags" = pyRound 3 (12345/10000) :=
  ⟨(round_for_unit_families (12345/10000) "kg").1 (by decide),
   (round_for_unit_families (12345/10000) "cum").2.1 (by decide),
   (round_for_unit_families (12345/10000) "bags").2.2.1 (by decide)⟩
